import Mathlib

/-!
# Verification of the cubinix-backend heuristic tabular query resolver

Shallow embedding of the decision logic of `routers/data.py` (canonical
field registry, `find_column`, the `ask_question` rule cascade) and of
`services/sales_analytics.py` (`_parse_money`, `_find_value_by_keywords`,
`get_top_sales_reps`), together with the CRM pre-check guard of the
`/data/top-sales-reps` endpoint.

Datasets are ordered sequences of records; a record is a dict from column
name to a raw string cell (missing keys are missing cells).  Numeric cells
are modelled over `ℚ`; pandas NaN sentinels are modelled with `Option`.
-/

/- ### String primitives (Python `in`, `lower`, `strip`, `split`) -/

/-- `isSubAt n h`: `n` occurs at the start of `h`. -/
def isSubAt : List Char → List Char → Bool
  | [], _ => true
  | _ :: _, [] => false
  | a :: as, b :: bs => a = b && isSubAt as bs

/-- `subList n h`: `n` occurs contiguously somewhere in `h`. -/
def subList : List Char → List Char → Bool
  | n, [] => n.isEmpty
  | n, h :: t => isSubAt n (h :: t) || subList n t

/-- Python `needle in hay` on strings. -/
def strIn (needle hay : String) : Bool :=
  subList needle.toList hay.toList

/-- Python `str.lower()` (ASCII data). -/
def lowerStr (s : String) : String :=
  (s.toList.map Char.toLower).asString

/-- Drop the characters of `bad` from both ends of a character list. -/
def trimEnds (bad : List Char) (l : List Char) : List Char :=
  ((l.dropWhile (fun c => bad.contains c)).reverse.dropWhile
    (fun c => bad.contains c)).reverse

/-- The whitespace characters Python `str.strip()` removes. -/
def wsChars : List Char :=
  [' ', Char.ofNat 9, Char.ofNat 10, Char.ofNat 13, Char.ofNat 11, Char.ofNat 12]

/-- Python `str.strip()`. -/
def pyStrip (s : String) : String :=
  (trimEnds wsChars s.toList).asString

/-- Start positions of the occurrences of `sep` inside `l`. -/
def occStarts (sep l : List Char) : List Nat :=
  (List.range (l.length + 1)).filter (fun i => isSubAt sep (l.drop i))

/-- The text after the last occurrence of `sep` in `s` (the last piece of
Python `s.split(sep)`; `sep` cannot self-overlap for the separators used
here), or `s` itself when `sep` does not occur. -/
def afterLast (sep s : String) : String :=
  match (occStarts sep.toList s.toList).getLast? with
  | none => s
  | some i => ((s.toList).drop (i + sep.toList.length)).asString

/- ### Value coercion (Python float, `_parse_money`, `pd.to_numeric`, dates) -/

/-- Decimal value of a digit character. -/
def digit? (c : Char) : Option Nat :=
  if c.isDigit then some (c.toNat - 48) else none

/-- Value of a (possibly empty) run of decimal digits; `none` on a non-digit. -/
def digitsVal : List Char → Option Nat :=
  List.foldl
    (fun acc c =>
      match acc, digit? c with
      | some n, some d => some (n * 10 + d)
      | _, _ => none)
    (some 0)

/-- Digits of a nonempty run; `none` when empty or with a non-digit. -/
def digitsVal! (l : List Char) : Option Nat :=
  if l.isEmpty then none else digitsVal l

/-- Sign, integer part, fraction numerator, fraction length of a plain decimal
numeral, after stripping outer whitespace.  Models Python `float()` on the
decimal forms the data model produces (no exponents or specials). -/
def decParts? (s : String) : Option (Int × Nat × Nat × Nat) :=
  let l := trimEnds wsChars s.toList
  let (sgn, body) :=
    match l with
    | c :: rest =>
      if c = '-' then ((-1 : Int), rest)
      else if c = '+' then ((1 : Int), rest)
      else ((1 : Int), c :: rest)
    | [] => ((1 : Int), ([] : List Char))
  match body.splitOn (Char.ofNat 46) with
  | [ip] => (digitsVal! ip).map (fun n => (sgn, n, 0, 0))
  | [ip, fp] =>
    if ip.isEmpty && fp.isEmpty then none
    else
      match digitsVal ip, digitsVal fp with
      | some n, some f => some (sgn, n, f, fp.length)
      | _, _ => none
  | _ => none

/-- The rational denoted by decimal parts. -/
def ratOfParts (p : Int × Nat × Nat × Nat) : ℚ :=
  (p.1 : ℚ) * ((p.2.1 : ℚ) + (p.2.2.1 : ℚ) / (10 : ℚ) ^ p.2.2.2)

/-- Python `float(s)`, `none` when unparseable. -/
def pyFloat? (s : String) : Option ℚ :=
  (decParts? s).map ratOfParts

/-- `_parse_money` from `services/sales_analytics.py`: `None` and empty input
are unparseable; otherwise strip, remove every `$` and `,`, float-parse. -/
def parse_money (x : Option String) : Option ℚ :=
  match x with
  | none => none
  | some v =>
    let s := pyStrip v
    if s.toList.isEmpty then none
    else
      pyFloat?
        ((s.toList.filter (fun c => !(c = Char.ofNat 36 || c = Char.ofNat 44))).asString)

/-- `pd.to_numeric(cell, errors="coerce")` on one cell; a missing cell stays
missing (NaN in, NaN out). -/
def toNumeric? (v : Option String) : Option ℚ :=
  v.bind pyFloat?

/-- A parsed calendar date. -/
structure PDate where
  year : Nat
  month : Nat
  day : Nat
deriving DecidableEq

/-- `pd.to_datetime(cell, errors="coerce")` on one cell, for the ISO
`YYYY-MM-DD` cells of the dataset model; anything else coerces to NaT. -/
def parseDate? (v : Option String) : Option PDate :=
  match v with
  | none => none
  | some s =>
    match (pyStrip s).toList.splitOn '-' with
    | [y, m, d] =>
      match digitsVal! y, digitsVal! m, digitsVal! d with
      | some yv, some mv, some dv =>
        if 1 ≤ mv && mv ≤ 12 && 1 ≤ dv && dv ≤ 31 then
          some ⟨yv, mv, dv⟩
        else none
      | _, _, _ => none
    | _ => none

/- ### The dataset model -/

/-- A record: a dict from column name to raw string cell. -/
abbrev Row := List (String × String)

/-- A dataset: an ordered sequence of records. -/
abbrev Df := List Row

/-- First-seen-order deduplication, with an accumulator of seen values. -/
def dedupFirstAux (seen : List String) : List String → List String
  | [] => []
  | x :: xs =>
    if seen.contains x then dedupFirstAux seen xs
    else x :: dedupFirstAux (x :: seen) xs

/-- Distinct values in first-seen order (pandas `unique` on object columns). -/
def dedupFirst (l : List String) : List String :=
  dedupFirstAux [] l

/-- `pd.DataFrame(records).columns`: the record keys in first-appearance order. -/
def colsOf (df : Df) : List String :=
  dedupFirst ((df.map (fun r => r.map Prod.fst)).flatten)

/-- Look a cell up in a record; missing key means missing cell. -/
def getCell (r : Row) (c : String) : Option String :=
  List.lookup c r

/-- One column of the dataset, as a list of possibly-missing cells. -/
def colVals (df : Df) (c : String) : List (Option String) :=
  df.map (fun r => getCell r c)

/-- `astype(str)` on a cell: pandas renders a missing cell as `"nan"`. -/
def cellStr : Option String → String
  | none => "nan"
  | some s => s

/- ### Canonical field registry and resolver (routers/data.py) -/

/-- The keyword lists of `CANONICAL_FIELDS` in `routers/data.py`; the lookup
`CANONICAL_FIELDS.get(field_key, {}).get("keywords", [])` yields `[]` for
unknown keys. -/
def canonicalKeywords : String → List String
  | "none" => []
  | "sales_rep" => ["rep", "sales_rep", "agent", "salesperson", "owner"]
  | "customer_name" => ["customer", "client", "account", "company", "name"]
  | "deal_value" => ["amount", "value", "revenue", "price", "total"]
  | "deal_stage" => ["stage", "status", "pipeline", "won", "lost", "closed"]
  | "close_date" => ["close", "date", "signed", "order_date"]
  | "city" => ["city", "town", "location"]
  | "region" => ["state", "province", "region"]
  | "country" => ["country"]
  | _ => []

/-- Exact-phase test of `find_column`: the column's lowercase form equals
the lowercase form of some keyword of the field. -/
def exactMatch (field_key c : String) : Bool :=
  ((canonicalKeywords field_key).map lowerStr).contains (lowerStr c)

/-- Substring-phase test of `find_column`: the column's lowercase form
contains some keyword as a substring. -/
def subMatch (field_key c : String) : Bool :=
  (canonicalKeywords field_key).any (fun k => strIn (lowerStr k) (lowerStr c))

/-- `find_column` from `ask_question` (routers/data.py): an exact
case-insensitive keyword match on the columns in order, and only if no column
matches exactly, the first column containing some keyword as a substring. -/
def find_column (cols : List String) (field_key : String) : Option String :=
  match cols.find? (exactMatch field_key) with
  | some c => some c
  | none => cols.find? (subMatch field_key)

example : find_column ["Deal Amount ($)", "Stage", "owner_name"] "deal_value" =
    some "Deal Amount ($)" := by decide

example : find_column ["amount", "Deal Amount"] "deal_value" = some "amount" := by decide

/-- Evaluation helper: reduce a concrete `parse_money` run to its decimal
parts, which are decidable, leaving only the final rational arithmetic. -/
theorem parse_money_eval (v : String) (p : Int × Nat × Nat × Nat)
    (h1 : (pyStrip v).toList.isEmpty = false)
    (h2 : decParts?
        ((pyStrip v).toList.filter
          (fun c => !(c = Char.ofNat 36 || c = Char.ofNat 44))).asString = some p) :
    parse_money (some v) = some (ratOfParts p) := by
  unfold parse_money
  simp only [h1, Bool.false_eq_true, if_false, pyFloat?, h2]
  rfl

example : parse_money (some "$1,250.50") = some (125050 / 100 : ℚ) := by
  rw [parse_money_eval "$1,250.50" (1, 1250, 50, 2) (by decide) (by decide)]
  norm_num [ratOfParts]

example : parse_money (some "N/A") = none := by decide

example : parse_money (some "") = none := by decide

example : afterLast "contain" "how many rows contain it" = " it" := by decide

/- ### The query intent cascade (`ask_question`, routers/data.py) -/

/-- Sum of the non-NaN entries of a coerced column (pandas `Series.sum`,
which also yields 0 for an all-NaN column). -/
def nansum (xs : List (Option ℚ)) : ℚ :=
  xs.foldl (fun acc v => match v with | some x => acc + x | none => acc) 0

/-- Mean of the non-NaN entries (pandas `Series.mean`): the NaN sentinel
(`none`) when no entry is valid, so no division by zero can occur. -/
def nanmean (xs : List (Option ℚ)) : Option ℚ :=
  let n := xs.countP Option.isSome
  if n = 0 then none else some (nansum xs / n)

/-- Structured outcome of one deterministic rule of the cascade. -/
inductive Ans where
  | containsCount (col keyword : String) (count : Nat)
  | uniqueList (col : String) (vals : List String)
  | sumTotal (col : String) (total : ℚ)
  | average (col : String) (avg : Option ℚ)
  | yearCount (year count : Nat)
  | summary (df : Df)
  | pipeline (col : String) (total : ℚ)
  | byStage (pairs : List (String × ℚ))
  | closingMonth (col : String) (count : Nat)
  | closeRateNoStage
  | closeRateNoClosed
  | closeRate (won lost : Nat)
deriving DecidableEq

/-- Rule 1 body (lines 193-196): the keyword is the text after the last
"contain", whitespace-stripped then stripped of quotes and spaces; count the
rows whose stringified cell contains it case-insensitively.  (pandas
`str.contains` reads its pattern as a regex; on the plain keywords of this
data model that is literal containment.) -/
def containsAns (q : String) (df : Df) (col : String) : Ans :=
  let keyword :=
    (trimEnds [Char.ofNat 39, Char.ofNat 34, ' ']
      (pyStrip (afterLast "contain" q)).toList).asString
  .containsCount col keyword
    ((colVals df col).countP (fun v => strIn keyword (lowerStr (cellStr v))))

/-- Rule 2 body (lines 198-200): `dropna().unique()`. -/
def uniqueAns (df : Df) (col : String) : Ans :=
  .uniqueList col (dedupFirst ((colVals df col).filterMap id))

/-- Rule 3 body (lines 202-205): coerce then `.sum()`. -/
def sumAns (df : Df) (col : String) : Ans :=
  .sumTotal col (nansum ((colVals df col).map toNumeric?))

/-- Rule 4 body (lines 207-210): coerce then `.mean()`. -/
def avgAns (df : Df) (col : String) : Ans :=
  .average col (nanmean ((colVals df col).map toNumeric?))

/-- The body of `for col in df.columns:` (lines 192-210): the four
column-keyed rules tried in order on one column. -/
def rowRules (q : String) (df : Df) (col : String) : Option Ans :=
  if (strIn "how many" q && strIn "contain" q) && strIn (lowerStr col) q then
    some (containsAns q df col)
  else if strIn "list all unique" q && strIn (lowerStr col) q then
    some (uniqueAns df col)
  else if (strIn "total" q || strIn "sum" q) && strIn (lowerStr col) q then
    some (sumAns df col)
  else if strIn "average" q && strIn (lowerStr col) q then
    some (avgAns df col)
  else none

/-- The column loop itself: first column whose rule fires returns. -/
def colLoop (q : String) (df : Df) : List String → Option Ans
  | [] => none
  | c :: cs =>
    match rowRules q df c with
    | some a => some a
    | none => colLoop q df cs

/-- The supported year literals, in the order of the source list. -/
def yearStrings : List (String × Nat) :=
  [("2022", 2022), ("2023", 2023), ("2024", 2024)]

/-- `[y for y in ["2022","2023","2024"] if y in question][0]`: the first
year of the fixed list that occurs anywhere in the question (the 0 default
is unreachable under the year rule's guard). -/
def selYear (q : String) : Nat :=
  match yearStrings.find? (fun p => strIn p.1 q) with
  | some p => p.2
  | none => 0

/-- Whether `pd.to_datetime` on the column yields at least one parseable
value (`dt.notna().sum() > 0`). -/
def hasDates (df : Df) (c : String) : Bool :=
  (colVals df c).any (fun v => (parseDate? v).isSome)

/-- Rows of the column whose parsed date falls in year `y`
(`df[dt.dt.year == year].shape[0]`; NaT rows never match). -/
def yearCountIn (df : Df) (c : String) (y : Nat) : Nat :=
  (colVals df c).countP (fun v =>
    match parseDate? v with
    | some d => d.year == y
    | none => false)

/-- Inner loop of the year rule: the first column with at least one
parseable date decides, and the scan stops there. -/
def yearScan (q : String) (df : Df) : List String → Option Ans
  | [] => none
  | c :: cs =>
    if hasDates df c then
      some (.yearCount (selYear q) (yearCountIn df c (selYear q)))
    else yearScan q df cs

/-- Rule 5 (lines 212-218); `none` both when the predicate fails and when no
column has a parseable date (the `for` ends and control falls through). -/
def yearRule (q : String) (df : Df) : Option Ans :=
  if strIn "how many" q && (strIn "2022" q || strIn "2023" q || strIn "2024" q) then
    yearScan q df (colsOf df)
  else none

/-- Rule 6 (lines 220-222). -/
def summaryRule (q : String) (df : Df) : Option Ans :=
  if strIn "summary" q then some (.summary df) else none

/-- Intent of rule 7 (line 232), with the redundant third disjunct of the source. -/
def pipelinePred (q : String) : Bool :=
  strIn "pipeline" q || strIn "forecast" q || strIn "total pipeline" q

/-- Rule 7 body: coerce the deal-value column, `fillna(0).sum()`. -/
def pipelineAns (df : Df) (col : String) : Ans :=
  .pipeline col (nansum ((colVals df col).map toNumeric?))

/-- Rule 7 (lines 232-235): requires a resolved deal-value column. -/
def pipelineRule (q : String) (df : Df) : Option Ans :=
  if pipelinePred q then (find_column (colsOf df) "deal_value").map (pipelineAns df)
  else none

/-- Ascending insertion into a sorted list of strings. -/
def insertAsc (x : String) : List String → List String
  | [] => [x]
  | y :: ys => if x ≤ y then x :: y :: ys else y :: insertAsc x ys

/-- Ascending sort (pandas `groupby` sorts group keys). -/
def sortedKeys (l : List String) : List String :=
  l.foldl (fun acc x => insertAsc x acc) []

/-- Stable descending insertion by the rational component. -/
def insertDesc (p : String × ℚ) : List (String × ℚ) → List (String × ℚ)
  | [] => [p]
  | x :: xs => if p.2 ≤ x.2 then x :: insertDesc p xs else p :: x :: xs

/-- Stable descending sort by the rational component.  Python `sorted` with
`reverse=True` is stable; pandas `sort_values` leaves tie order unspecified,
and the embedding fixes the stable order for it. -/
def sortDesc (l : List (String × ℚ)) : List (String × ℚ) :=
  l.foldl (fun acc p => insertDesc p acc) []

/-- Rule 8 body (lines 237-241): group rows by stage value (groupby drops
missing stages and sorts keys), sum coerced deal values per group, order
groups descending by sum. -/
def byStageAns (df : Df) (amountCol stageCol : String) : Ans :=
  .byStage (sortDesc
    ((sortedKeys (dedupFirst ((colVals df stageCol).filterMap id))).map
      (fun k => (k, nansum (df.filterMap (fun r =>
        if getCell r stageCol = some k then some (toNumeric? (getCell r amountCol))
        else none))))))

/-- Intent of rule 8 (line 237). -/
def byStagePred (q : String) : Bool :=
  strIn "by stage" q || strIn "per stage" q

/-- Rule 8: requires both resolved columns. -/
def byStageRule (q : String) (df : Df) : Option Ans :=
  if byStagePred q then
    match find_column (colsOf df) "deal_value", find_column (colsOf df) "deal_stage" with
    | some a, some s => some (byStageAns df a s)
    | _, _ => none
  else none

/-- Intent of rule 9 (line 243). -/
def closingPred (q : String) : Bool :=
  (strIn "closing" q || strIn "close" q) && strIn "this month" q

/-- Rule 9 body: count rows whose parsed close date is in the current month. -/
def closingAns (df : Df) (now : PDate) (col : String) : Ans :=
  .closingMonth col ((colVals df col).countP (fun v =>
    match parseDate? v with
    | some d => d.year == now.year && d.month == now.month
    | none => false))

/-- Rule 9 (lines 243-247): requires a resolved close-date column; `now` is
the request-time clock of `pd.Timestamp.utcnow()`. -/
def closingRule (q : String) (df : Df) (now : PDate) : Option Ans :=
  if closingPred q then (find_column (colsOf df) "close_date").map (closingAns df now)
  else none

/-- Intent of rule 10 (line 252). -/
def ratePred (q : String) : Bool :=
  strIn "close rate" q || strIn "win rate" q || strIn "conversion rate" q

/-- Rows whose stringified lowercased stage contains "won". -/
def wonCount (df : Df) (stageCol : String) : Nat :=
  (colVals df stageCol).countP (fun v => strIn "won" (lowerStr (cellStr v)))

/-- Rows whose stringified lowercased stage contains "lost". -/
def lostCount (df : Df) (stageCol : String) : Nat :=
  (colVals df stageCol).countP (fun v => strIn "lost" (lowerStr (cellStr v)))

/-- Rule 10 body once the stage column resolved (lines 258-272): the
won+lost = 0 case returns the no-closed-deals outcome before any division. -/
def closeRateAns (df : Df) (stageCol : String) : Ans :=
  let won := wonCount df stageCol
  let lost := lostCount df stageCol
  if won + lost = 0 then .closeRateNoClosed else .closeRate won lost

/-- Rule 10 (lines 252-272): under its intent it always answers — an
unresolved stage column yields the guidance outcome, never the fallback. -/
def closeRateRule (q : String) (df : Df) : Option Ans :=
  if ratePred q then
    some (match find_column (colsOf df) "deal_stage" with
      | none => .closeRateNoStage
      | some s => closeRateAns df s)
  else none

/-- First-some choice: a `return` ends the request, no rule runs after it. -/
def oElse (a b : Option Ans) : Option Ans :=
  match a with
  | some x => some x
  | none => b

/-- Rules 5-10, whose order is identical in the code and in the spec's rule
list; shared by both cascade presentations below. -/
def restCascade (q : String) (df : Df) (now : PDate) : Option Ans :=
  oElse (yearRule q df)
    (oElse (summaryRule q df)
      (oElse (pipelineRule q df)
        (oElse (byStageRule q df)
          (oElse (closingRule q df now) (closeRateRule q df)))))

/-- The deterministic part of `ask_question` as the code executes it: a
column-major loop over the four column-keyed rules (lines 192-210), then
rules 5-10.  `q` is the lowercased question (line 170), `now` the
request-time clock; `none` falls through to the generative fallback. -/
def codeCascade (q : String) (df : Df) (now : PDate) : Option Ans :=
  oElse (colLoop q df (colsOf df)) (restCascade q df now)

/-- The first column whose lowercase name occurs in the question: the firing
column of a column-keyed rule in the spec's wording. -/
def firstColIn (q : String) (df : Df) : Option String :=
  (colsOf df).find? (fun c => strIn (lowerStr c) q)

/-- The cascade as the spec words it: a strictly ordered rule-major list —
contains-count, unique-listing, sum/total, average, each firing on the first
column whose lowercase name occurs in the question, then rules 5-10 in the
same fixed order. -/
def specCascade (q : String) (df : Df) (now : PDate) : Option Ans :=
  match firstColIn q df with
  | some c =>
    if strIn "how many" q && strIn "contain" q then some (containsAns q df c)
    else if strIn "list all unique" q then some (uniqueAns df c)
    else if strIn "total" q || strIn "sum" q then some (sumAns df c)
    else if strIn "average" q then some (avgAns df c)
    else restCascade q df now
  | none => restCascade q df now

/- ### Rendering the answer strings -/

/-- A single-quote character, as the answer templates quote column names. -/
def qmark : String := (([Char.ofNat 39] : List Char)).asString

/-- Round-half-to-even to an integer (Python float formatting and `round`). -/
def roundHalfEven (q : ℚ) : ℤ :=
  let f := ⌊q⌋
  if q - f < 1 / 2 then f
  else if (1 : ℚ) / 2 < q - f then f + 1
  else if f % 2 = 0 then f else f + 1

/-- Python `f"{x:.2f}"` (thousands grouping of `{:,.2f}` is display-only and
omitted). -/
def fmt2 (q : ℚ) : String :=
  let n := roundHalfEven (q * 100)
  let m := n.natAbs
  (if n < 0 then "-" else "") ++ toString (m / 100) ++ "." ++
    (if m % 100 < 10 then "0" else "") ++ toString (m % 100)

/-- Display form of a rational in the `{total}`/`{avg}` templates; Python
float repr is display-only and abbreviated to an exact form here. -/
def ratStr (q : ℚ) : String :=
  if q.den = 1 then toString q.num ++ ".0"
  else toString q.num ++ "/" ++ toString q.den

/-- Abbreviated stand-in for `df.describe(include="all").to_dict()`:
per-column non-missing and distinct counts (the full describe payload is
outside every claim; only the summary rule's trigger and position are
load-bearing). -/
def describeStr (df : Df) : String :=
  String.intercalate "; " ((colsOf df).map (fun c =>
    c ++ ": count=" ++ toString ((colVals df c).filterMap id).length ++
      " unique=" ++ toString (dedupFirst ((colVals df c).filterMap id)).length))

/-- The user-visible answer string of each deterministic rule, as the
f-strings of `ask_question` build it (counts, column names, keywords and
two-decimal rates rendered exactly; bare float displays abbreviated). -/
def renderAns : Ans → String
  | .containsCount col kw n =>
    "🔒 Logic result: There are " ++ toString n ++ " rows in " ++ qmark ++ col ++ qmark ++
      " that contain " ++ qmark ++ kw ++ qmark ++ "."
  | .uniqueList col vals =>
    "🔒 Logic result: Unique values in " ++ qmark ++ col ++ qmark ++ ": " ++
      String.intercalate ", " vals ++ ". Total: " ++ toString vals.length
  | .sumTotal col t =>
    "🔒 Logic result: Total of " ++ qmark ++ col ++ qmark ++ ": " ++ ratStr t
  | .average col a =>
    "🔒 Logic result: Average of " ++ qmark ++ col ++ qmark ++ ": " ++
      (match a with | none => "nan" | some x => ratStr x)
  | .yearCount y n =>
    "🔒 Logic result: Rows in year " ++ toString y ++ ": " ++ toString n
  | .summary df =>
    "🔒 Logic result: Basic dataset summary: " ++ describeStr df
  | .pipeline col t =>
    "🔒 Logic result: Total pipeline amount from " ++ qmark ++ col ++ qmark ++ " is " ++
      fmt2 t ++ "."
  | .byStage pairs =>
    "🔒 Logic result: Pipeline amount by stage:\n" ++
      String.intercalate "\n" (pairs.map (fun p => p.1 ++ ": " ++ fmt2 p.2))
  | .closingMonth col n =>
    "🔒 Logic result: " ++ toString n ++ " rows have " ++ qmark ++ col ++ qmark ++
      " in this month."
  | .closeRateNoStage =>
    "❌ Could not detect a Deal Stage column. Please map your stage field."
  | .closeRateNoClosed =>
    "🔒 Logic result: No closed deals found (won/lost)."
  | .closeRate won lost =>
    "🔒 Logic result: Close rate is " ++
      fmt2 (((won : ℚ) / ((won : ℚ) + (lost : ℚ))) * 100) ++ "% (" ++
      toString won ++ " won / " ++ toString (won + lost) ++ " closed deals)."

/-- The bounded fallback context: the first 500 records, stringified (the
exact Python dict layout of a stringified row is opaque to every claim,
which quantify over all generative-service behaviour). -/
def promptOf (question : String) (df : Df) : String :=
  "Dataset:\n" ++
    String.intercalate "\n" ((df.take 500).map (fun r =>
      String.intercalate ", " (r.map (fun p => p.1 ++ "=" ++ p.2)))) ++
    "\n\nUser Question:\n" ++ question

/-- `ask_question`'s evaluation inside its `try:` (lines 188-289): the
deterministic cascade, then the generative fallback — an external call that
may raise, modelled by `Except.error`. -/
def askBody (question : String) (df : Df) (now : PDate)
    (ai : String → Except String String) : Except String String :=
  match codeCascade (lowerStr question) df now with
  | some a => .ok (renderAns a)
  | none =>
    (ai (promptOf question df)).map (fun t => "🤖 AI-predicted response:\n" ++ t)

/-- `ask_question` (lines 188-292): the catch-all `except` converts any
fault raised during evaluation into a user-visible error answer string. -/
def ask_question (question : String) (df : Df) (now : PDate)
    (ai : String → Except String String) : String :=
  match askBody question df now ai with
  | .ok s => s
  | .error e => "❌ Error occurred while processing your request: " ++ e

/- ### Revenue ranking reducer (`services/sales_analytics.py`) -/

/-- `_find_value_by_keywords`: exact case-insensitive key match first,
iterating the keywords (the `lower_keys` dict keeps the last key for a
lowercase collision), then the first key containing some keyword. -/
def find_value_by_keywords (record : Row) (keywords : List String) : Option String :=
  match keywords.findSome? (fun kw =>
      (record.reverse.find? (fun p => lowerStr p.1 = lowerStr kw)).map Prod.snd) with
  | some v => some v
  | none =>
    record.findSome? (fun p =>
      if keywords.any (fun kw => strIn (lowerStr kw) (lowerStr p.1)) then some p.2
      else none)

/-- Python truthiness of an optional string cell (`if not rep`). -/
def truthy : Option String → Bool
  | none => false
  | some s => !s.toList.isEmpty

/-- The representative resolution of one record in `get_top_sales_reps`:
the canonical `sales_rep` key if truthy, else keyword fallback; `none` when
the record is to be skipped (`if not rep: continue`). -/
def repOf (r : Row) : Option String :=
  let r0 := getCell r "sales_rep"
  let r1 :=
    if truthy r0 then r0
    else find_value_by_keywords r ["rep", "sales_rep", "agent", "salesperson", "owner"]
  if truthy r1 then r1 else none

/-- The amount resolution of one record: the canonical `deal_value` key if
present and nonempty, else keyword fallback. -/
def amountOf (r : Row) : Option String :=
  let a0 := getCell r "deal_value"
  if a0 = none || a0 = some "" then
    find_value_by_keywords r ["amount", "value", "revenue", "price", "total"]
  else a0

/-- The trimmed accumulator key of a record together with its parsed amount;
`none` exactly when `get_top_sales_reps` skips the record. -/
def contribOf (r : Row) : Option (String × ℚ) :=
  match repOf r with
  | none => none
  | some rep =>
    match parse_money (amountOf r) with
    | none => none
    | some x => some (pyStrip rep, x)

/-- Add an amount to a rep's running sum, appending first-time reps at the
end (`defaultdict` preserves insertion order). -/
def accumulate : List (String × ℚ) → String → ℚ → List (String × ℚ)
  | [], k, v => [(k, v)]
  | (k', v') :: rest, k, v =>
    if k' = k then (k', v' + v) :: rest else (k', v') :: accumulate rest k v

/-- One iteration of the record loop: skip, or accumulate the contribution. -/
def stepAcc (acc : List (String × ℚ)) (r : Row) : List (String × ℚ) :=
  match contribOf r with
  | none => acc
  | some (k, v) => accumulate acc k v

/-- The `revenue_by_rep` mapping after the record loop of
`get_top_sales_reps` (lines 39-57), in insertion order. -/
def accumAll (records : List Row) : List (String × ℚ) :=
  records.foldl stepAcc []

/-- Python `round(x, 2)` (round-half-to-even at the second decimal). -/
def round2 (q : ℚ) : ℚ :=
  (roundHalfEven (q * 100) : ℚ) / 100

/-- `get_top_sales_reps(records, top_n)` (lines 36-64): accumulate, sort
descending by total (stable, ties in first-appearance order), truncate,
round each total to two decimals. -/
def get_top_sales_reps (records : List Row) (top_n : Nat) : List (String × ℚ) :=
  ((sortDesc (accumAll records)).take top_n).map (fun p => (p.1, round2 p.2))

/- ### The `/data/top-sales-reps` endpoint guard (routers/data.py lines 331-356) -/

/-- The lowercased header tokens of a 25-record sample, deduplicated.  The
Python code collects them into a `set`, whose iteration order is
unspecified; the embedding fixes first-insertion order. -/
def sample_keys (records : List Row) : List String :=
  dedupFirst (((records.take 25).map (fun r => r.map (fun p => lowerStr p.1))).flatten)

/-- Concatenation of a list of strings (Python `"".join`). -/
def concatAll : List String → String
  | [] => ""
  | s :: rest => s ++ concatAll rest

/-- The representative keyword family of the guard (line 337). -/
def repFamily : List String :=
  ["sales_rep", "sales rep", "rep", "owner", "agent", "salesperson"]

/-- The value keyword family of the guard (line 338). -/
def valueFamily : List String :=
  ["deal_value", "deal value", "revenue", "amount", "price", "total"]

/-- `"".join(sample_keys)`: the concatenation the guard searches. -/
def joinedKeys (records : List Row) : String :=
  concatAll (sample_keys records)

/-- `rep_like` of the guard: some representative keyword occurs in the
concatenation of the sampled header tokens. -/
def rep_like (records : List Row) : Bool :=
  repFamily.any (fun x => strIn x (joinedKeys records))

/-- `value_like` of the guard. -/
def value_like (records : List Row) : Bool :=
  valueFamily.any (fun x => strIn x (joinedKeys records))

/-- The claim-side per-token check: some sampled header token contains a
keyword of the family (the spec's "testing header tokens against the
keyword families"). -/
def tokenMatches (family : List String) (records : List Row) : Bool :=
  (sample_keys records).any (fun k => family.any (fun kw => strIn kw k))

/-- Outcome of `/data/top-sales-reps` once records were loaded: the ranking
list plus an optional guidance note. -/
def top_sales_reps (records : List Row) : List (String × ℚ) × Option String :=
  if records.isEmpty then ([], some "No records found.")
  else if !(rep_like records && value_like records) then
    ([], some "This feature requires a CRM/Sales dataset with Sales Rep/Owner + Deal Value/Revenue fields. Upload a CRM export or map your columns to canonical fields (sales_rep, deal_value).")
  else
    let top := get_top_sales_reps records 5
    if top.isEmpty then
      ([], some "No usable Sales Rep + Deal Value pairs found. Check that mapped values exist and Deal Value is numeric.")
    else (top, none)

/- ### General helper lemmas -/

theorem oElse_some (a : Ans) (b : Option Ans) : oElse (some a) b = some a := rfl

theorem oElse_none (b : Option Ans) : oElse none b = b := rfl

theorem oElse_isSome (a b : Option Ans) :
    (oElse a b).isSome = (a.isSome || b.isSome) := by
  cases a <;> rfl

theorem contains_iff_mem (l : List String) (x : String) :
    l.contains x = true ↔ x ∈ l :=
  List.elem_iff

theorem mem_dedupFirstAux (l : List String) :
    ∀ (seen : List String) (x : String),
      x ∈ dedupFirstAux seen l ↔ x ∈ l ∧ x ∉ seen := by
  induction l with
  | nil => intro seen x; simp [dedupFirstAux]
  | cons y ys ih =>
    intro seen x
    by_cases hy : seen.contains y = true
    · rw [dedupFirstAux, if_pos hy, ih]
      have hmem : y ∈ seen := (contains_iff_mem seen y).mp hy
      constructor
      · rintro ⟨h1, h2⟩; exact ⟨List.mem_cons_of_mem _ h1, h2⟩
      · rintro ⟨h1, h2⟩
        rcases List.mem_cons.mp h1 with rfl | h1
        · exact absurd hmem h2
        · exact ⟨h1, h2⟩
    · rw [dedupFirstAux, if_neg hy]
      have hmem : y ∉ seen := fun h =>
        hy ((contains_iff_mem seen y).mpr h)
      constructor
      · intro h
        rcases List.mem_cons.mp h with rfl | h
        · exact ⟨List.mem_cons_self _ _, hmem⟩
        · rcases (ih _ x).mp h with ⟨h1, h2⟩
          refine ⟨List.mem_cons_of_mem _ h1, fun hx => h2 (List.mem_cons_of_mem _ hx)⟩
      · rintro ⟨h1, h2⟩
        rcases List.mem_cons.mp h1 with rfl | h1
        · exact List.mem_cons_self _ _
        · by_cases hxy : x = y
          · subst hxy; exact List.mem_cons_self _ _
          · refine List.mem_cons_of_mem _ ((ih _ x).mpr ⟨h1, fun hx => ?_⟩)
            rcases List.mem_cons.mp hx with h | h
            · exact hxy h
            · exact h2 h

theorem nodup_dedupFirstAux (l : List String) :
    ∀ seen : List String, (dedupFirstAux seen l).Nodup := by
  induction l with
  | nil => intro seen; simp [dedupFirstAux]
  | cons y ys ih =>
    intro seen
    by_cases hy : seen.contains y = true
    · rw [dedupFirstAux, if_pos hy]; exact ih seen
    · rw [dedupFirstAux, if_neg hy]
      refine List.nodup_cons.mpr ⟨fun h => ?_, ih _⟩
      exact ((mem_dedupFirstAux ys _ y).mp h).2 (List.mem_cons_self _ _)

theorem sublist_dedupFirstAux (l : List String) :
    ∀ seen : List String, List.Sublist (dedupFirstAux seen l) l := by
  induction l with
  | nil => intro seen; simp [dedupFirstAux]
  | cons y ys ih =>
    intro seen
    by_cases hy : seen.contains y = true
    · rw [dedupFirstAux, if_pos hy]; exact List.Sublist.cons y (ih seen)
    · rw [dedupFirstAux, if_neg hy]; exact List.Sublist.cons₂ y (ih _)

theorem dedupFirstAux_congr (l : List String) :
    ∀ s1 s2 : List String, (∀ x, x ∈ s1 ↔ x ∈ s2) →
      dedupFirstAux s1 l = dedupFirstAux s2 l := by
  induction l with
  | nil => intro s1 s2 _; rfl
  | cons y ys ih =>
    intro s1 s2 hiff
    have hc : s1.contains y = s2.contains y := by
      by_cases h1 : s1.contains y = true
      · rw [h1]
        exact ((contains_iff_mem s2 y).mpr ((hiff y).mp ((contains_iff_mem s1 y).mp h1))).symm
      · have h2 : s2.contains y ≠ true := fun h =>
          h1 ((contains_iff_mem s1 y).mpr ((hiff y).mpr ((contains_iff_mem s2 y).mp h)))
        simp only [Bool.not_eq_true] at h1 h2
        rw [h1, h2]
    by_cases hy : s2.contains y = true
    · rw [dedupFirstAux, dedupFirstAux, hc, if_pos hy, if_pos hy, ih s1 s2 hiff]
    · rw [dedupFirstAux, dedupFirstAux, hc, if_neg hy, if_neg hy]
      refine congrArg _ (ih _ _ fun x => ?_)
      simp only [List.mem_cons]
      exact or_congr Iff.rfl (hiff x)

/- ### C3: field resolution -/

/-- C3: field resolution is case-insensitive and tries exact matches before
substring matches: `find_column` returns the first exactly matching column
when one exists, otherwise falls to the substring phase (hence `none` when
neither matches); on `["Deal Amount ($)", "Stage", "owner_name"]` with key
`deal_value` it resolves `"Deal Amount ($)"` by substring (no exact match
exists), and on `["amount", "Deal Amount"]` the exact phase prefers
`"amount"`. -/
theorem c3_find_column_resolution :
    (∀ cols key c, cols.find? (exactMatch key) = some c →
        find_column cols key = some c)
  ∧ (∀ cols key, cols.find? (exactMatch key) = none →
        find_column cols key = cols.find? (subMatch key))
  ∧ ((["Deal Amount ($)", "Stage", "owner_name"].find? (exactMatch "deal_value") = none)
      ∧ find_column ["Deal Amount ($)", "Stage", "owner_name"] "deal_value" =
          some "Deal Amount ($)"
      ∧ subMatch "deal_value" "Deal Amount ($)" = true)
  ∧ (exactMatch "deal_value" "amount" = true
      ∧ find_column ["amount", "Deal Amount"] "deal_value" = some "amount") := by
  refine ⟨?_, ?_, ⟨by decide, by decide, by decide⟩, ⟨by decide, by decide⟩⟩
  · intro cols key c h
    unfold find_column
    rw [h]
  · intro cols key h
    unfold find_column
    rw [h]

/-- Witness for C3 at concrete inputs. -/
theorem c3_find_column_resolution_witness :
    find_column ["amount", "Deal Amount"] "deal_value" = some "amount"
  ∧ find_column ["Deal Amount ($)", "Stage", "owner_name"] "deal_value" =
      some "Deal Amount ($)" := by
  constructor
  · exact c3_find_column_resolution.1 ["amount", "Deal Amount"] "deal_value" "amount"
      (by decide)
  · exact (c3_find_column_resolution.2.1 ["Deal Amount ($)", "Stage", "owner_name"]
      "deal_value" (by decide)).trans (by decide)

/- ### C7: unique listing -/

/-- C7: the unique-listing rule answers with the column's distinct
non-missing values in first-seen order (a duplicate-free subsequence of the
non-missing cells with the same members), and the reported total — the
length of that very list — equals the number of distinct non-missing
values; missing cells are omitted entirely. -/
theorem c7_unique_listing (df : Df) (c : String) :
    uniqueAns df c = .uniqueList c (dedupFirst ((colVals df c).filterMap id))
  ∧ (dedupFirst ((colVals df c).filterMap id)).Nodup
  ∧ List.Sublist (dedupFirst ((colVals df c).filterMap id))
      ((colVals df c).filterMap id)
  ∧ (∀ x, x ∈ dedupFirst ((colVals df c).filterMap id) ↔ some x ∈ colVals df c)
  ∧ (dedupFirst ((colVals df c).filterMap id)).length =
      ((colVals df c).filterMap id).toFinset.card := by
  refine ⟨rfl, nodup_dedupFirstAux _ _, sublist_dedupFirstAux _ _, ?_, ?_⟩
  · intro x
    rw [dedupFirst, mem_dedupFirstAux]
    simp [List.mem_filterMap]
  · have hm : ∀ x, x ∈ dedupFirst ((colVals df c).filterMap id) ↔
        x ∈ (colVals df c).filterMap id := by
      intro x
      rw [dedupFirst, mem_dedupFirstAux]
      simp
    have hfin : (dedupFirst ((colVals df c).filterMap id)).toFinset =
        ((colVals df c).filterMap id).toFinset := by
      apply Finset.ext
      intro x
      simp only [List.mem_toFinset]
      exact hm x
    rw [← hfin]
    exact (List.toFinset_card_of_nodup (nodup_dedupFirstAux _ _)).symm

/- ### C6: fault conversion -/

/-- C6: every request that reaches rule evaluation returns a structured
answer string: a successful evaluation returns its answer, and any fault
raised while evaluating (modelled by the `Except.error` outcome of the
body, whose only partial operation is the external generative call) is
caught and converted into the user-visible error answer. -/
theorem c6_cascade_fault_conversion :
    (∀ question df now ai s, askBody question df now ai = .ok s →
        ask_question question df now ai = s)
  ∧ (∀ question df now ai e, askBody question df now ai = .error e →
        ask_question question df now ai =
          "❌ Error occurred while processing your request: " ++ e) := by
  constructor
  · intro question df now ai s h
    unfold ask_question
    rw [h]
  · intro question df now ai e h
    unfold ask_question
    rw [h]

/-- Witness for C6: a concrete request whose fallback call faults is
converted into the error answer. -/
theorem c6_cascade_fault_conversion_witness :
    ask_question "xyzzy" [[("a", "1")]] ⟨2024, 5, 1⟩ (fun _ => .error "boom") =
      "❌ Error occurred while processing your request: " ++ "boom" :=
  c6_cascade_fault_conversion.2 "xyzzy" [[("a", "1")]] ⟨2024, 5, 1⟩
    (fun _ => .error "boom") "boom" (by rfl)

/- ### C10: the year-count rule -/

theorem yearScan_eq_find (q : String) (df : Df) (cols : List String) :
    yearScan q df cols = (cols.find? (hasDates df)).map
      (fun c => .yearCount (selYear q) (yearCountIn df c (selYear q))) := by
  induction cols with
  | nil => rfl
  | cons c cs ih =>
    by_cases hc : hasDates df c = true
    · rw [yearScan, if_pos hc, List.find?_cons_of_pos _ hc]
      rfl
    · rw [yearScan, if_neg hc, List.find?_cons_of_neg _ hc]
      exact ih

/-- C10: the year rule recognizes only the literal year strings 2022, 2023,
2024 — it is off when none occurs in the question; under its guard it
answers at the first column with at least one parseable date, counting the
rows of that column parsed to the selected year; the selected year is the
first of 2022, 2023, 2024 in that fixed list order occurring anywhere in
the question, not the textually earliest — a question mentioning 2023
before 2022 still selects 2022. -/
theorem c10_year_rule :
    (∀ q df, (strIn "2022" q || strIn "2023" q || strIn "2024" q) = false →
        yearRule q df = none)
  ∧ (∀ q df, yearRule q df =
        (if (strIn "how many" q && (strIn "2022" q || strIn "2023" q || strIn "2024" q)) = true
         then ((colsOf df).find? (hasDates df)).map
            (fun c => Ans.yearCount (selYear q) (yearCountIn df c (selYear q)))
         else none))
  ∧ (∀ q, strIn "2022" q = true → selYear q = 2022)
  ∧ (selYear "how many rows from 2023 or 2022" = 2022
      ∧ strIn "2023" "how many rows from 2023 or 2022" = true
      ∧ yearRule "how many rows from 2023 or 2022"
          [[("d", "2022-05-01")], [("d", "2023-06-01")], [("d", "2023-07-01")]] =
          some (.yearCount 2022 1)) := by
  refine ⟨?_, ?_, ?_, by decide, by decide, by decide⟩
  · intro q df h
    simp [yearRule, h]
  · intro q df
    simp only [yearRule, yearScan_eq_find]
  · intro q h
    simp [selYear, yearStrings, List.find?, h]

/-- Witness for C10 at concrete inputs. -/
theorem c10_year_rule_witness :
    yearRule "how many widgets sold in 2025" [[("d", "2022-05-01")]] = none
  ∧ selYear "we got 2022 stuff" = 2022 := by
  constructor
  · exact c10_year_rule.1 "how many widgets sold in 2025" _ (by decide)
  · exact c10_year_rule.2.2.1 "we got 2022 stuff" (by decide)

/- ### C5: close-rate safety -/

theorem roundHalfEven_intCast (n : ℤ) : roundHalfEven ((n : ℚ)) = n := by
  unfold roundHalfEven
  simp only [Int.floor_intCast, sub_self]
  norm_num

theorem fmt2_eval (q : ℚ) (n : ℤ) (h : q * 100 = (n : ℚ)) :
    fmt2 q = (if n < 0 then "-" else "") ++ toString (n.natAbs / 100) ++ "." ++
      (if n.natAbs % 100 < 10 then "0" else "") ++ toString (n.natAbs % 100) := by
  unfold fmt2
  rw [h, roundHalfEven_intCast]

/-- Ten-row dataset for the close-rate test case: 3 won, 1 lost, 6 other. -/
def dfCR : Df :=
  [[("stage", "Closed Won")], [("stage", "Closed Won")], [("stage", "Closed Won")],
   [("stage", "Closed Lost")], [("stage", "New")], [("stage", "Qualified")],
   [("stage", "Proposal")], [("stage", "Negotiation")], [("stage", "Demo")],
   [("stage", "Contacted")]]

/-- C5: a question with a close/win/conversion-rate phrase never falls
through to the AI fallback; with the phrase present but no resolvable
deal-stage column the rule answers the guidance message; won and lost are
counted by case-insensitive substring tests, and when won+lost = 0 the
answer is the no-closed-deals message with no division performed; with
won=3, lost=1, other=6 the rendered answer is 75.00% on 4 closed deals. -/
theorem c5_close_rate_safety :
    (∀ q df now, ratePred q = true → (codeCascade q df now).isSome = true)
  ∧ (∀ q df, ratePred q = true → find_column (colsOf df) "deal_stage" = none →
        closeRateRule q df = some .closeRateNoStage)
  ∧ (∀ df s, wonCount df s + lostCount df s = 0 →
        closeRateAns df s = .closeRateNoClosed)
  ∧ renderAns .closeRateNoClosed = "🔒 Logic result: No closed deals found (won/lost)."
  ∧ (wonCount dfCR "stage" = 3 ∧ lostCount dfCR "stage" = 1
      ∧ closeRateRule "what is our close rate" dfCR = some (.closeRate 3 1))
  ∧ renderAns (.closeRate 3 1) =
      "🔒 Logic result: Close rate is 75.00% (3 won / 4 closed deals)." := by
  refine ⟨?_, ?_, ?_, by decide, ⟨by decide, by decide, by decide⟩, ?_⟩
  · intro q df now h
    have hcr : (closeRateRule q df).isSome = true := by
      simp [closeRateRule, h]
    simp only [codeCascade, restCascade, oElse_isSome, hcr, Bool.or_true]
  · intro q df h hs
    rw [closeRateRule, if_pos h, hs]
  · intro df s h
    simp only [closeRateAns]
    rw [if_pos h]
  · show "🔒 Logic result: Close rate is " ++
      fmt2 ((((3 : Nat) : ℚ) / (((3 : Nat) : ℚ) + ((1 : Nat) : ℚ))) * 100) ++ "% (" ++
      toString (3 : Nat) ++ " won / " ++ toString ((3 : Nat) + (1 : Nat)) ++
      " closed deals)." = _
    rw [fmt2_eval _ 7500 (by push_cast; norm_num)]
    decide

/-- Witness for C5 at concrete inputs. -/
theorem c5_close_rate_safety_witness :
    (codeCascade "what is the win rate" [[("region", "west")]] ⟨2024, 1, 1⟩).isSome = true
  ∧ closeRateRule "what is the win rate" [[("region", "west")]] =
      some .closeRateNoStage
  ∧ closeRateAns [[("stage", "New")]] "stage" = .closeRateNoClosed := by
  refine ⟨?_, ?_, ?_⟩
  · exact c5_close_rate_safety.1 "what is the win rate" [[("region", "west")]]
      ⟨2024, 1, 1⟩ (by decide)
  · exact c5_close_rate_safety.2.1 "what is the win rate" [[("region", "west")]]
      (by decide) (by decide)
  · exact c5_close_rate_safety.2.2.1 [[("stage", "New")]] "stage" (by decide)

/- ### C9: determinism of the cascade -/

/-- One-row dataset with a close-date column. -/
def df9 : Df := [[("close_date", "2024-01-10")]]

/-- C9 counterexample: the same question on the same dataset produces two
different deterministic answers when evaluated in different months — the
closing-this-month rule reads the request-time clock, so the deterministic
cascade is not a pure function of question and dataset alone. -/
theorem c9_clock_counterexample :
    (codeCascade "deals closing this month" df9 ⟨2024, 1, 15⟩).map renderAns ≠
      (codeCascade "deals closing this month" df9 ⟨2024, 2, 15⟩).map renderAns := by
  decide

/-- C9 (amended): the deterministic cascade is a pure function of question,
dataset and the request-time clock; the clock is read only by the
closing-this-month rule, so every question without "this month" receives a
clock-independent answer, and two invocations at the same clock are
byte-identical. -/
theorem c9_determinism_with_clock :
    (∀ q df now now', strIn "this month" q = false →
        (codeCascade q df now).map renderAns = (codeCascade q df now').map renderAns)
  ∧ (∀ q df now, (codeCascade q df now).map renderAns =
        (codeCascade q df now).map renderAns) := by
  constructor
  · intro q df now now' h
    have hc : closingPred q = false := by simp [closingPred, h]
    simp [codeCascade, restCascade, closingRule, hc]
  · intro q df now
    rfl

/-- Witness for C9's amended statement at concrete inputs. -/
theorem c9_determinism_with_clock_witness :
    (codeCascade "hello" [] ⟨2024, 1, 1⟩).map renderAns =
      (codeCascade "hello" [] ⟨2025, 6, 2⟩).map renderAns :=
  c9_determinism_with_clock.1 "hello" [] ⟨2024, 1, 1⟩ ⟨2025, 6, 2⟩ (by decide)

/- ### C1: the cascade is first-match-wins in the spec's rule order -/

theorem colLoop_none (q : String) (df : Df)
    (h1 : (strIn "how many" q && strIn "contain" q) = false)
    (h2 : strIn "list all unique" q = false)
    (h3 : (strIn "total" q || strIn "sum" q) = false)
    (h4 : strIn "average" q = false) :
    ∀ cols, colLoop q df cols = none := by
  intro cols
  induction cols with
  | nil => rfl
  | cons c cs ih =>
    rw [colLoop]
    have hr : rowRules q df c = none := by
      simp [rowRules, h1, h2, h3, h4]
    rw [hr]
    exact ih

theorem colLoop_eq_ruleMajor (q : String) (df : Df) (cols : List String) :
    colLoop q df cols =
      match cols.find? (fun c => strIn (lowerStr c) q) with
      | some c =>
        if strIn "how many" q && strIn "contain" q then some (containsAns q df c)
        else if strIn "list all unique" q then some (uniqueAns df c)
        else if strIn "total" q || strIn "sum" q then some (sumAns df c)
        else if strIn "average" q then some (avgAns df c)
        else none
      | none => none := by
  induction cols with
  | nil => rfl
  | cons c cs ih =>
    by_cases hc : strIn (lowerStr c) q = true
    · rw [colLoop]
      simp only [List.find?_cons, hc]
      have hr : rowRules q df c =
          (if strIn "how many" q && strIn "contain" q then some (containsAns q df c)
           else if strIn "list all unique" q then some (uniqueAns df c)
           else if strIn "total" q || strIn "sum" q then some (sumAns df c)
           else if strIn "average" q then some (avgAns df c)
           else none) := by
        simp only [rowRules, hc, Bool.and_true]
      rw [hr]
      cases h1 : (strIn "how many" q && strIn "contain" q) with
      | true => simp [h1]
      | false =>
        cases h2 : strIn "list all unique" q with
        | true => simp [h1, h2]
        | false =>
          cases h3 : (strIn "total" q || strIn "sum" q) with
          | true => simp [h1, h2, h3]
          | false =>
            cases h4 : strIn "average" q with
            | true => simp [h1, h2, h3, h4]
            | false =>
              simp only [h1, h2, h3, h4, Bool.false_eq_true, if_false]
              exact colLoop_none q df h1 h2 h3 h4 cs
    · have hcf : strIn (lowerStr c) q = false := by
        revert hc; cases strIn (lowerStr c) q <;> simp
      rw [colLoop]
      simp only [List.find?_cons, hcf]
      have hr : rowRules q df c = none := by
        simp [rowRules, hcf]
      rw [hr]
      exact ih

/-- C1: the code's nested column-loop cascade behaves exactly as the spec's
strictly ordered rule-major list: rules in the fixed priority order
(contains-count, unique-listing, sum/total, average, year-count, summary,
pipeline/forecast, group-by-stage, closing-this-month, close-rate), the
first satisfied rule answering and nothing running after it, column-keyed
rules firing on the first column whose lowercase name occurs in the
question; in particular a question satisfying both the contains-count and
the summary predicates resolves via contains-count. -/
theorem c1_cascade_refinement :
    (∀ q df now, codeCascade q df now = specCascade q df now)
  ∧ (∀ q df now c, strIn "how many" q = true → strIn "contain" q = true →
      strIn "summary" q = true → firstColIn q df = some c →
      codeCascade q df now = some (containsAns q df c)) := by
  constructor
  · intro q df now
    rw [codeCascade, specCascade, colLoop_eq_ruleMajor]
    rw [show firstColIn q df = (colsOf df).find? (fun c => strIn (lowerStr c) q) from rfl]
    cases hfc : (colsOf df).find? (fun c => strIn (lowerStr c) q) with
    | none => simp [oElse]
    | some c =>
      cases h1 : (strIn "how many" q && strIn "contain" q) with
      | true => simp [h1, oElse]
      | false =>
        cases h2 : strIn "list all unique" q with
        | true => simp [h1, h2, oElse]
        | false =>
          cases h3 : (strIn "total" q || strIn "sum" q) with
          | true => simp [h1, h2, h3, oElse]
          | false =>
            cases h4 : strIn "average" q with
            | true => simp [h1, h2, h3, h4, oElse]
            | false => simp [h1, h2, h3, h4, oElse]
  · intro q df now c h1 h2 _ hfc
    rw [codeCascade, colLoop_eq_ruleMajor]
    rw [show (colsOf df).find? (fun c => strIn (lowerStr c) q) = firstColIn q df from rfl,
      hfc]
    simp [h1, h2, oElse]

/-- One-row dataset with a `rows` column for the precedence test. -/
def df1 : Df := [[("rows", "abcx")]]

/-- Witness for C1: the equivalence and the contains-count-over-summary
precedence at a concrete question satisfying both predicates. -/
theorem c1_cascade_refinement_witness :
    codeCascade "summary how many rows contain x" df1 ⟨2024, 1, 1⟩ =
      specCascade "summary how many rows contain x" df1 ⟨2024, 1, 1⟩
  ∧ codeCascade "summary how many rows contain x" df1 ⟨2024, 1, 1⟩ =
      some (.containsCount "rows" "x" 1) := by
  constructor
  · exact c1_cascade_refinement.1 "summary how many rows contain x" df1 ⟨2024, 1, 1⟩
  · exact (c1_cascade_refinement.2 "summary how many rows contain x" df1 ⟨2024, 1, 1⟩
      "rows" (by decide) (by decide) (by decide) (by decide)).trans (by decide)

/- ### C2: sum and average -/

theorem nansum_foldl (xs : List (Option ℚ)) :
    ∀ a : ℚ, xs.foldl (fun acc v => match v with | some x => acc + x | none => acc) a =
      a + (xs.filterMap id).sum := by
  induction xs with
  | nil => intro a; simp
  | cons x xs ih =>
    intro a
    cases x with
    | none => simpa using ih a
    | some v =>
      simp only [List.foldl_cons, List.filterMap_cons, id, ih, List.sum_cons]
      ring

theorem nansum_eq (xs : List (Option ℚ)) : nansum xs = (xs.filterMap id).sum := by
  simpa using nansum_foldl xs 0

theorem countP_isSome (xs : List (Option ℚ)) :
    xs.countP Option.isSome = (xs.filterMap id).length := by
  induction xs with
  | nil => rfl
  | cons x xs ih => cases x <;> simp [List.countP_cons, ih]

theorem filterMap_id_map_toNumeric (l : List (Option String)) :
    (l.map toNumeric?).filterMap id = l.filterMap toNumeric? := by
  rw [List.filterMap_map]
  rfl

/-- The sum rule's total is the sum of the coercible values, ignoring
non-coercible entries. -/
theorem sumAns_eq (df : Df) (c : String) :
    sumAns df c = .sumTotal c ((colVals df c).filterMap toNumeric?).sum := by
  rw [sumAns, nansum, nansum_foldl, filterMap_id_map_toNumeric, zero_add]

/-- The average rule's value is the sum of the coercible values divided by
their count, and the NaN sentinel when there are none. -/
theorem avgAns_eq (df : Df) (c : String) :
    avgAns df c = .average c
      (if ((colVals df c).filterMap toNumeric?).length = 0 then none
       else some (((colVals df c).filterMap toNumeric?).sum /
         (((colVals df c).filterMap toNumeric?).length : ℚ))) := by
  rw [avgAns]
  simp only [nanmean, countP_isSome, filterMap_id_map_toNumeric, nansum_eq]

/-- C2: for every dataset and first question-matching column, under the
sum intent the cascade answers with the sum of the values that coerce to
numbers (non-coercible entries ignored); under the average intent it
answers that sum divided by the count of coercible entries, and when zero
entries coerce the answer is the defined NaN sentinel — no division by
zero is ever performed. -/
theorem c2_sum_average (q : String) (df : Df) (now : PDate) (c : String)
    (hfc : firstColIn q df = some c) :
    ((strIn "how many" q && strIn "contain" q) = false →
      strIn "list all unique" q = false →
      (strIn "total" q || strIn "sum" q) = true →
      codeCascade q df now =
        some (.sumTotal c ((colVals df c).filterMap toNumeric?).sum))
  ∧ ((strIn "how many" q && strIn "contain" q) = false →
      strIn "list all unique" q = false →
      (strIn "total" q || strIn "sum" q) = false →
      strIn "average" q = true →
      codeCascade q df now = some (.average c
        (if ((colVals df c).filterMap toNumeric?).length = 0 then none
         else some (((colVals df c).filterMap toNumeric?).sum /
           (((colVals df c).filterMap toNumeric?).length : ℚ)))))
  ∧ (∀ df' c', ((colVals df' c').filterMap toNumeric?).length = 0 →
      avgAns df' c' = .average c' none) := by
  refine ⟨?_, ?_, ?_⟩
  · intro h1 h2 h3
    rw [codeCascade, colLoop_eq_ruleMajor,
      show (colsOf df).find? (fun x => strIn (lowerStr x) q) = firstColIn q df from rfl,
      hfc]
    simp [h1, h2, h3, oElse, sumAns_eq]
  · intro h1 h2 h3 h4
    rw [codeCascade, colLoop_eq_ruleMajor,
      show (colsOf df).find? (fun x => strIn (lowerStr x) q) = firstColIn q df from rfl,
      hfc]
    simp [h1, h2, h3, h4, oElse, avgAns_eq]
  · intro df' c' h
    rw [avgAns_eq, if_pos h]

/-- Three-row dataset with one non-coercible amount. -/
def df2 : Df := [[("amount", "10")], [("amount", "x")], [("amount", "5.5")]]

/-- Witness for C2: sum 10 + 5.5 = 15.5 ignoring the bad cell; average
15.5 / 2 = 7.75; a column with no coercible value averages to the NaN
sentinel. -/
theorem c2_sum_average_witness :
    codeCascade "total amount" df2 ⟨2024, 1, 1⟩ =
      some (.sumTotal "amount" (31 / 2))
  ∧ codeCascade "average amount" df2 ⟨2024, 1, 1⟩ =
      some (.average "amount" (some (31 / 4)))
  ∧ avgAns [[("b", "zzz")]] "b" = .average "b" none := by
  refine ⟨?_, ?_, ?_⟩
  · have h := (c2_sum_average "total amount" df2 ⟨2024, 1, 1⟩ "amount" (by decide)).1
      (by decide) (by decide) (by decide)
    rw [h]
    have hv : (colVals df2 "amount").filterMap toNumeric? =
        [ratOfParts (1, 10, 0, 0), ratOfParts (1, 5, 5, 1)] := rfl
    rw [hv]
    norm_num [ratOfParts]
  · have h := (c2_sum_average "average amount" df2 ⟨2024, 1, 1⟩ "amount" (by decide)).2.1
      (by decide) (by decide) (by decide) (by decide)
    rw [h]
    have hv : (colVals df2 "amount").filterMap toNumeric? =
        [ratOfParts (1, 10, 0, 0), ratOfParts (1, 5, 5, 1)] := rfl
    rw [hv]
    norm_num [ratOfParts]
  · exact (c2_sum_average "total amount" df2 ⟨2024, 1, 1⟩ "amount" (by decide)).2.2
      [[("b", "zzz")]] "b" (by decide)

/- ### C4: the revenue ranking reducer -/

theorem mem_insertDesc (p x : String × ℚ) (l : List (String × ℚ)) :
    x ∈ insertDesc p l ↔ x = p ∨ x ∈ l := by
  induction l with
  | nil => simp [insertDesc]
  | cons y ys ih =>
    rw [insertDesc]
    by_cases h : p.2 ≤ y.2
    · rw [if_pos h]
      simp only [List.mem_cons, ih]
      tauto
    · rw [if_neg h]
      simp only [List.mem_cons]

theorem pairwise_insertDesc (p : String × ℚ) (l : List (String × ℚ))
    (hl : l.Pairwise (fun a b => b.2 ≤ a.2)) :
    (insertDesc p l).Pairwise (fun a b => b.2 ≤ a.2) := by
  induction l with
  | nil => simp [insertDesc]
  | cons y ys ih =>
    rcases List.pairwise_cons.mp hl with ⟨hy, hys⟩
    rw [insertDesc]
    by_cases h : p.2 ≤ y.2
    · rw [if_pos h]
      refine List.pairwise_cons.mpr ⟨?_, ih hys⟩
      intro b hb
      rcases (mem_insertDesc p b ys).mp hb with rfl | hb
      · exact h
      · exact hy b hb
    · rw [if_neg h]
      refine List.pairwise_cons.mpr ⟨?_, hl⟩
      intro b hb
      rcases List.mem_cons.mp hb with rfl | hb
      · exact le_of_lt (lt_of_not_le h)
      · exact le_trans (hy b hb) (le_of_lt (lt_of_not_le h))

theorem pairwise_sortDesc_aux (l : List (String × ℚ)) :
    ∀ acc, acc.Pairwise (fun a b => b.2 ≤ a.2) →
      (l.foldl (fun acc p => insertDesc p acc) acc).Pairwise
        (fun a b => b.2 ≤ a.2) := by
  induction l with
  | nil => intro acc h; exact h
  | cons p ps ih =>
    intro acc h
    exact ih _ (pairwise_insertDesc p acc h)

theorem pairwise_sortDesc (l : List (String × ℚ)) :
    (sortDesc l).Pairwise (fun a b => b.2 ≤ a.2) :=
  pairwise_sortDesc_aux l [] (by simp)

theorem filter_insertDesc (p : String × ℚ) (v : ℚ) (l : List (String × ℚ))
    (hl : l.Pairwise (fun a b => b.2 ≤ a.2)) :
    (insertDesc p l).filter (fun x => decide (x.2 = v)) =
      l.filter (fun x => decide (x.2 = v)) ++ (if p.2 = v then [p] else []) := by
  induction l with
  | nil =>
    rw [insertDesc]
    by_cases h : p.2 = v <;> simp [List.filter, h]
  | cons y ys ih =>
    rcases List.pairwise_cons.mp hl with ⟨hy, hys⟩
    rw [insertDesc]
    by_cases h : p.2 ≤ y.2
    · rw [if_pos h, List.filter_cons, List.filter_cons]
      by_cases hyv : y.2 = v
      · simp [hyv, ih hys]
      · simp [hyv, ih hys]
    · rw [if_neg h]
      have hlt : ∀ a ∈ y :: ys, a.2 < p.2 := by
        intro a ha
        have hay : a.2 ≤ y.2 := by
          rcases List.mem_cons.mp ha with rfl | ha
          · exact le_refl _
          · exact hy a ha
        exact lt_of_le_of_lt hay (lt_of_not_le h)
      by_cases hpv : p.2 = v
      · have hnil : (y :: ys).filter (fun x => decide (x.2 = v)) = [] := by
          rw [List.filter_eq_nil_iff]
          intro a ha
          simp only [decide_eq_true_eq]
          intro hav
          exact absurd (hav ▸ hlt a ha) (by rw [hpv]; exact lt_irrefl v)
        rw [List.filter_cons, hnil]
        simp [hpv]
      · rw [List.filter_cons]
        simp [hpv]

theorem sortDesc_filter_aux (v : ℚ) (l : List (String × ℚ)) :
    ∀ acc, acc.Pairwise (fun a b => b.2 ≤ a.2) →
      (l.foldl (fun acc p => insertDesc p acc) acc).filter
          (fun x => decide (x.2 = v)) =
        acc.filter (fun x => decide (x.2 = v)) ++
          l.filter (fun x => decide (x.2 = v)) := by
  induction l with
  | nil => intro acc _; simp
  | cons p ps ih =>
    intro acc h
    rw [List.foldl_cons, ih _ (pairwise_insertDesc p acc h),
      filter_insertDesc p v acc h, List.filter_cons]
    by_cases hpv : p.2 = v
    · simp [hpv, List.append_assoc]
    · simp [hpv]

/-- `sortDesc` is stable: the entries at each total value keep their
original relative order. -/
theorem sortDesc_stable (l : List (String × ℚ)) (v : ℚ) :
    (sortDesc l).filter (fun x => decide (x.2 = v)) =
      l.filter (fun x => decide (x.2 = v)) := by
  have h := sortDesc_filter_aux v l [] (by simp)
  simpa [sortDesc] using h

theorem lookup_accumulate_self (acc : List (String × ℚ)) (k : String) (v : ℚ) :
    (accumulate acc k v).lookup k = some (((acc.lookup k).getD 0) + v) := by
  induction acc with
  | nil => simp [accumulate, List.lookup]
  | cons p acc ih =>
    obtain ⟨k', v'⟩ := p
    rw [accumulate]
    by_cases h : k' = k
    · subst h
      simp [List.lookup]
    · rw [if_neg h]
      have hb : (k == k') = false := by
        simp [beq_iff_eq]
        exact fun he => h he.symm
      simp [List.lookup, hb, ih]

theorem lookup_accumulate_other (acc : List (String × ℚ)) (k : String) (v : ℚ)
    (k2 : String) (h : k2 ≠ k) :
    (accumulate acc k v).lookup k2 = acc.lookup k2 := by
  induction acc with
  | nil =>
    have hb : (k2 == k) = false := by simp [beq_iff_eq, h]
    simp [accumulate, List.lookup, hb]
  | cons p acc ih =>
    obtain ⟨k', v'⟩ := p
    rw [accumulate]
    by_cases hk : k' = k
    · subst hk
      have hb : (k2 == k') = false := by simp [beq_iff_eq, h]
      simp [List.lookup, hb]
    · rw [if_neg hk]
      simp [List.lookup, ih]

theorem accumAll_lookup_aux (l : List Row) (k : String) :
    ∀ acc, (((l.foldl stepAcc acc).lookup k).getD 0) =
      ((acc.lookup k).getD 0) +
        (((l.filterMap contribOf).filter (fun p => decide (p.1 = k))).map
          Prod.snd).sum := by
  induction l with
  | nil => intro acc; simp
  | cons r l ih =>
    intro acc
    rw [List.foldl_cons]
    cases hc : contribOf r with
    | none =>
      simp only [stepAcc, hc]
      rw [ih]
      simp [List.filterMap_cons, hc]
    | some kv =>
      obtain ⟨k0, v0⟩ := kv
      simp only [stepAcc, hc]
      rw [ih]
      simp only [List.filterMap_cons, hc, List.filter_cons]
      by_cases hk : k0 = k
      · subst hk
        rw [lookup_accumulate_self]
        simp [add_assoc]
      · rw [lookup_accumulate_other _ _ _ _ (fun he => hk he.symm)]
        simp [hk]

theorem accumAll_lookup (records : List Row) (k : String) :
    ((accumAll records).lookup k).getD 0 =
      (((records.filterMap contribOf).filter (fun p => decide (p.1 = k))).map
        Prod.snd).sum := by
  have h := accumAll_lookup_aux records k []
  simpa [accumAll] using h

theorem accumulate_keys (acc : List (String × ℚ)) (k : String) (v : ℚ) :
    (accumulate acc k v).map Prod.fst =
      (if k ∈ acc.map Prod.fst then acc.map Prod.fst
       else acc.map Prod.fst ++ [k]) := by
  induction acc with
  | nil => simp [accumulate]
  | cons p acc ih =>
    obtain ⟨k', v'⟩ := p
    rw [accumulate]
    by_cases h : k' = k
    · subst h
      simp
    · rw [if_neg h]
      simp only [List.map_cons, ih, List.mem_cons]
      by_cases hc : k ∈ acc.map Prod.fst
      · rw [if_pos hc, if_pos (Or.inr hc)]
      · rw [if_neg hc, if_neg (by rintro (rfl | hm); exact h rfl; exact hc hm)]
        simp

theorem accumAll_keys_aux (l : List Row) :
    ∀ acc : List (String × ℚ), ((l.foldl stepAcc acc).map Prod.fst) =
      acc.map Prod.fst ++
        dedupFirstAux (acc.map Prod.fst)
          (l.filterMap (fun r => (contribOf r).map Prod.fst)) := by
  induction l with
  | nil => intro acc; simp [dedupFirstAux]
  | cons r l ih =>
    intro acc
    rw [List.foldl_cons]
    cases hc : contribOf r with
    | none =>
      simp only [stepAcc, hc]
      rw [ih]
      simp [List.filterMap_cons, hc]
    | some kv =>
      obtain ⟨k, v⟩ := kv
      simp only [stepAcc, hc]
      rw [ih (accumulate acc k v), accumulate_keys]
      simp only [List.filterMap_cons, hc, Option.map_some']
      rw [dedupFirstAux]
      by_cases hck : k ∈ acc.map Prod.fst
      · rw [if_pos hck, if_pos ((contains_iff_mem _ _).mpr hck)]
      · rw [if_neg hck,
          if_neg (fun hmem => hck ((contains_iff_mem _ _).mp hmem))]
        rw [dedupFirstAux_congr _ (acc.map Prod.fst ++ [k]) (k :: acc.map Prod.fst)
          (by intro x; simp [or_comm])]
        simp

/-- The accumulator's keys are the contributing records' trimmed
representatives in first-appearance order. -/
theorem accumAll_keys (records : List Row) :
    (accumAll records).map Prod.fst =
      dedupFirst (records.filterMap (fun r => (contribOf r).map Prod.fst)) := by
  have h := accumAll_keys_aux records []
  simpa [accumAll, dedupFirst] using h

theorem roundHalfEven_ge (q : ℚ) : ⌊q⌋ ≤ roundHalfEven q := by
  unfold roundHalfEven
  dsimp only
  split_ifs <;> omega

theorem roundHalfEven_le (q : ℚ) : roundHalfEven q ≤ ⌊q⌋ + 1 := by
  unfold roundHalfEven
  dsimp only
  split_ifs <;> omega

theorem roundHalfEven_mono {a b : ℚ} (h : a ≤ b) :
    roundHalfEven a ≤ roundHalfEven b := by
  rcases lt_or_eq_of_le (Int.floor_le_floor h) with hf | hf
  · calc roundHalfEven a ≤ ⌊a⌋ + 1 := roundHalfEven_le a
      _ ≤ ⌊b⌋ := by omega
      _ ≤ roundHalfEven b := roundHalfEven_ge b
  · by_cases ha : a - ⌊a⌋ < 1 / 2
    · have hav : roundHalfEven a = ⌊a⌋ := by
        unfold roundHalfEven
        rw [if_pos ha]
      rw [hav, hf]
      exact roundHalfEven_ge b
    · by_cases hb2 : (1 : ℚ) / 2 < b - ⌊b⌋
      · have hbv : roundHalfEven b = ⌊b⌋ + 1 := by
          unfold roundHalfEven
          rw [if_neg (not_lt.mpr (le_of_lt hb2)), if_pos hb2]
        calc roundHalfEven a ≤ ⌊a⌋ + 1 := roundHalfEven_le a
          _ = ⌊b⌋ + 1 := by rw [hf]
          _ = roundHalfEven b := hbv.symm
      · have h1 : (1 : ℚ) / 2 ≤ a - ⌊a⌋ := not_lt.mp ha
        have h2 : b - ⌊b⌋ ≤ 1 / 2 := not_lt.mp hb2
        have hcast : ((⌊a⌋ : ℚ)) = ((⌊b⌋ : ℚ)) := by rw [hf]
        have hab : a = b := by linarith
        rw [hab]

theorem round2_mono {a b : ℚ} (h : a ≤ b) : round2 a ≤ round2 b := by
  unfold round2
  have h100 : a * 100 ≤ b * 100 := by nlinarith
  have hr := roundHalfEven_mono h100
  have hc : ((roundHalfEven (a * 100) : ℚ)) ≤ ((roundHalfEven (b * 100) : ℚ)) := by
    exact_mod_cast hr
  gcongr

theorem round2_eval (q : ℚ) (n : ℤ) (h : q * 100 = (n : ℚ)) :
    round2 q = (n : ℚ) / 100 := by
  unfold round2
  rw [h, roundHalfEven_intCast]

/-- The concrete three-record dataset of the claim's test case. -/
def df4 : Df :=
  [[("rep", "A"), ("amount", "$100")],
   [("rep", "B"), ("amount", "$300")],
   [("rep", "A"), ("amount", "$50")]]

/-- C4: the ranking reducer skips records with no resolvable representative
and records whose amount fails money parsing (contributing nothing, never
zero); it accumulates parsed amounts per trimmed representative, whose
accumulator order is first-appearance order; the output has at most `top_n`
entries, is ordered descending by total, and ties keep first-appearance
order (stability of the descending sort over the insertion-ordered
accumulator); the claim's test case ranks B with 300.0 before A with 150.0. -/
theorem c4_revenue_ranking :
    (∀ r : Row, repOf r = none → contribOf r = none)
  ∧ (∀ r : Row, parse_money (amountOf r) = none → contribOf r = none)
  ∧ (∀ (r : Row) (rest : List Row) (n : Nat), contribOf r = none →
      get_top_sales_reps (r :: rest) n = get_top_sales_reps rest n)
  ∧ (∀ records n, (get_top_sales_reps records n).length ≤ n)
  ∧ (∀ records n,
      (get_top_sales_reps records n).Pairwise (fun a b => b.2 ≤ a.2))
  ∧ (∀ records, (accumAll records).map Prod.fst =
      dedupFirst (records.filterMap (fun r => (contribOf r).map Prod.fst)))
  ∧ (∀ records k, ((accumAll records).lookup k).getD 0 =
      (((records.filterMap contribOf).filter (fun p => decide (p.1 = k))).map
        Prod.snd).sum)
  ∧ (∀ records v, (sortDesc (accumAll records)).filter (fun x => decide (x.2 = v)) =
      (accumAll records).filter (fun x => decide (x.2 = v)))
  ∧ get_top_sales_reps df4 5 = [("B", 300), ("A", 150)] := by
  refine ⟨?_, ?_, ?_, ?_, ?_, accumAll_keys, accumAll_lookup,
    fun records v => sortDesc_stable (accumAll records) v, ?_⟩
  · intro r h
    simp [contribOf, h]
  · intro r h
    cases hr : repOf r <;> simp [contribOf, hr, h]
  · intro r rest n h
    simp [get_top_sales_reps, accumAll, List.foldl_cons, stepAcc, h]
  · intro records n
    simp only [get_top_sales_reps, List.length_map, List.length_take]
    exact Nat.min_le_left _ _
  · intro records n
    have hp := pairwise_sortDesc (accumAll records)
    have ht := hp.sublist (List.take_sublist n _)
    rw [get_top_sales_reps, List.pairwise_map]
    exact ht.imp (fun h => round2_mono h)
  · have ha : accumAll df4 =
        [("A", ratOfParts (1, 100, 0, 0) + ratOfParts (1, 50, 0, 0)),
         ("B", ratOfParts (1, 300, 0, 0))] := rfl
    have h150 : ratOfParts (1, 100, 0, 0) + ratOfParts (1, 50, 0, 0) = (150 : ℚ) := by
      norm_num [ratOfParts]
    have h300 : ratOfParts (1, 300, 0, 0) = (300 : ℚ) := by
      norm_num [ratOfParts]
    rw [get_top_sales_reps, ha, h150, h300]
    have hs : sortDesc [("A", (150 : ℚ)), ("B", (300 : ℚ))] =
        [("B", (300 : ℚ)), ("A", (150 : ℚ))] := by
      simp only [sortDesc, List.foldl_cons, List.foldl_nil, insertDesc]
      rw [if_neg (by norm_num)]
    rw [hs]
    have hr300 : round2 (300 : ℚ) = 300 := by
      rw [round2_eval _ 30000 (by norm_num)]
      norm_num
    have hr150 : round2 (150 : ℚ) = 150 := by
      rw [round2_eval _ 15000 (by norm_num)]
      norm_num
    simp [hr300, hr150]

/-- Witness for C4's skip clauses at concrete records. -/
theorem c4_revenue_ranking_witness :
    contribOf [("foo", "1")] = none
  ∧ contribOf [("rep", "A"), ("amount", "N/A")] = none
  ∧ get_top_sales_reps [[("foo", "1")]] 5 = get_top_sales_reps [] 5 := by
  refine ⟨?_, ?_, ?_⟩
  · exact c4_revenue_ranking.1 [("foo", "1")] (by decide)
  · exact c4_revenue_ranking.2.1 [("rep", "A"), ("amount", "N/A")] (by decide)
  · exact c4_revenue_ranking.2.2.1 [("foo", "1")] [] 5 (by decide)

/- ### C8: the top-sales-reps pre-check -/

theorem isSubAt_append (n : List Char) :
    ∀ h t : List Char, isSubAt n h = true → isSubAt n (h ++ t) = true := by
  induction n with
  | nil => intro h t _; rfl
  | cons a as ih =>
    intro h t hh
    cases h with
    | nil => simp [isSubAt] at hh
    | cons b bs =>
      simp only [isSubAt, Bool.and_eq_true, decide_eq_true_eq] at hh
      simp only [List.cons_append, isSubAt, Bool.and_eq_true, decide_eq_true_eq]
      exact ⟨hh.1, ih bs t hh.2⟩

theorem subList_nil_left (t : List Char) : subList [] t = true := by
  cases t <;> simp [subList, isSubAt]

theorem subList_append_left (n : List Char) :
    ∀ h t : List Char, subList n h = true → subList n (h ++ t) = true := by
  intro h
  induction h with
  | nil =>
    intro t hh
    have hn : n = [] := by simpa [subList, List.isEmpty_iff] using hh
    subst hn
    exact subList_nil_left t
  | cons c cs ih =>
    intro t hh
    rw [subList] at hh
    rcases Bool.or_eq_true_iff.mp hh with h1 | h2
    · rw [List.cons_append, subList]
      have := isSubAt_append n (c :: cs) t h1
      simp only [List.cons_append] at this
      simp [this]
    · rw [List.cons_append, subList]
      simp [ih t h2]

theorem subList_append_right (n : List Char) :
    ∀ h t : List Char, subList n t = true → subList n (h ++ t) = true := by
  intro h
  induction h with
  | nil => intro t hh; exact hh
  | cons c cs ih =>
    intro t hh
    rw [List.cons_append, subList]
    simp [ih t hh]

/-- A keyword contained in a member token is contained in the
concatenation of the tokens. -/
theorem strIn_concatAll (kw k : String) (l : List String) (hk : k ∈ l)
    (h : strIn kw k = true) : strIn kw (concatAll l) = true := by
  induction l with
  | nil => cases hk
  | cons s rest ih =>
    rw [concatAll]
    have happ : (s ++ concatAll rest).toList = s.toList ++ (concatAll rest).toList := by
      simp [String.toList]
    rcases List.mem_cons.mp hk with rfl | hk
    · rw [strIn, happ]
      exact subList_append_left _ _ _ h
    · rw [strIn, happ]
      exact subList_append_right _ _ _ (ih hk)

/-- Record set whose tokens `gr`, `epoch` spell "rep" only across the
boundary of the concatenated sample keys. -/
def badRecs : List Row := [[("gr", "x"), ("epoch", "y"), ("amount", "5")]]

/-- C8 counterexample: the guard passes (both families match the
concatenation "grepochamount") although no sampled header token matches
the representative keyword family — the pre-check is not equivalent to a
per-token test. -/
theorem c8_precheck_counterexample :
    (rep_like badRecs && value_like badRecs) = true
  ∧ tokenMatches repFamily badRecs = false := by
  constructor <;> decide

/-- C8 (amended): the pre-check tests whether a representative keyword and
a value keyword occur as substrings of the concatenation of the sampled
lowercased header tokens; per-token matches imply the check passes (though
not conversely, as a keyword may span a token boundary), and when the check
fails on a nonempty record set the reducer is skipped and the guidance
message with an empty ranking is returned. -/
theorem c8_precheck_guard :
    (∀ records, tokenMatches repFamily records = true → rep_like records = true)
  ∧ (∀ records, tokenMatches valueFamily records = true → value_like records = true)
  ∧ (∀ records, records.isEmpty = false →
      (rep_like records && value_like records) = false →
      top_sales_reps records = ([], some "This feature requires a CRM/Sales dataset with Sales Rep/Owner + Deal Value/Revenue fields. Upload a CRM export or map your columns to canonical fields (sales_rep, deal_value).")) := by
  refine ⟨?_, ?_, ?_⟩
  · intro records h
    simp only [tokenMatches, List.any_eq_true] at h
    obtain ⟨k, hk, kw, hkw, hin⟩ := h
    simp only [rep_like, List.any_eq_true]
    exact ⟨kw, hkw, strIn_concatAll kw k _ hk hin⟩
  · intro records h
    simp only [tokenMatches, List.any_eq_true] at h
    obtain ⟨k, hk, kw, hkw, hin⟩ := h
    simp only [value_like, List.any_eq_true]
    exact ⟨kw, hkw, strIn_concatAll kw k _ hk hin⟩
  · intro records h1 h2
    rw [top_sales_reps, if_neg (by simp [h1]), if_pos (by simp [h2])]

/-- Witness for C8's amended statement at concrete inputs. -/
theorem c8_precheck_guard_witness :
    rep_like [[("rep", "A"), ("amount", "1")]] = true
  ∧ value_like [[("rep", "A"), ("amount", "1")]] = true
  ∧ top_sales_reps [[("x", "1")]] =
      ([], some "This feature requires a CRM/Sales dataset with Sales Rep/Owner + Deal Value/Revenue fields. Upload a CRM export or map your columns to canonical fields (sales_rep, deal_value).") := by
  refine ⟨?_, ?_, ?_⟩
  · exact c8_precheck_guard.1 [[("rep", "A"), ("amount", "1")]] (by decide)
  · exact c8_precheck_guard.2.1 [[("rep", "A"), ("amount", "1")]] (by decide)
  · exact c8_precheck_guard.2.2 [[("x", "1")]] (by decide) (by decide)
